import Mathlib

/-!
Verification of the detect-match-dispatch pipeline of the splatnet-shop-alerts
repository. The definitions below are a shallow embedding of the TypeScript
source: the API route pages/api/check-and-notify.ts (the cycle coordinator) and
the database utilities (getUsersToBeNotified, trySendNotification,
deletePushSubscription, getUserSubscriptions, getLastNotifiedExpiration,
updateLastNotifiedExpiration). Timestamps are modelled as Int (milliseconds),
database tables as lists of rows, and the cycle's storage side effects as an
explicit event trace listed in the order the program issues them (the
sequential semantics of the handler; promise joins are linearised at the
program points where the code awaits them).
-/

namespace SSA

/-- One gear item as produced by the gear loader: identity, display name, a
single type, brand and ability, a rarity tier, and an absolute expiration
timestamp in milliseconds (the fields of the Gear class the pipeline reads). -/
structure Gear where
  id : String
  name : String
  gtype : String
  brand : String
  ability : String
  rarity : Nat
  expiration : Int
  image : String
deriving DecidableEq, Repr

/-- A stored filter row, as written by filterToTableData: an optional exact
name (empty string means unset), a minimum rarity, and explicit lists for
types, brands and abilities. The per-column booleans of the Filters table are
exactly list membership, and each wildcard column is stored as the emptiness
of the corresponding list (arrayEqual of the list with the empty array). -/
structure Filter where
  gearName : String
  minimumRarity : Nat
  gearTypes : List String
  gearBrands : List String
  gearAbilities : List String
deriving DecidableEq, Repr

/-- One push subscription row: endpoint, expiration hint and key pair. -/
structure Subscription where
  endpoint : String
  expirationTime : Int
  auth : String
  p256dh : String
deriving DecidableEq, Repr

/-- One row of the Users table: internal id, public user code, and the
lastNotifiedExpiration column (none models the SQL null of a user never
notified). -/
structure UserRow where
  id : Nat
  code : String
  lastNotifiedExpiration : Option Int
deriving DecidableEq, Repr

/-- The relational store observed by the cycle: the Users, Filters,
UsersToFilters and Subscriptions tables, and the server cache row holding the
raw gear snapshot. The raw snapshot payload is modelled as the parsed gear
list itself, so rawGearDataToGearList is the identity of the model. -/
structure DBState where
  users : List UserRow
  filters : List (Nat × Filter)
  usersToFilters : List (Nat × Nat)
  subscriptions : List (Nat × Subscription)
  cachedGearData : Option (List Gear)
deriving DecidableEq, Repr

/-- Characters admitted by the allow-list regex of getUsersToBeNotified:
alphanumerics, space, and the punctuation - + ( ) ampersand and apostrophe. -/
def isAllowedChar (c : Char) : Bool :=
  c.isAlpha || c.isDigit || c = '-' || c = '+' || c = '(' || c = ')'
    || c = '&' || c = Char.ofNat 39 || c = ' '

/-- The allow-list test applied to a gear name before it is used in the
matching query. -/
def validGearName (s : String) : Bool :=
  s.toList.all isAllowedChar

/-- Model of getLastNotifiedExpiration: the lastNotifiedExpiration column of
the user's row, with -1 returned when there is no row or the column is null. -/
def getLastNotifiedExpiration (db : DBState) (userID : Nat) : Int :=
  match db.users.find? (fun r => r.id = userID) with
  | some r =>
    match r.lastNotifiedExpiration with
    | some v => v
    | none => -1
  | none => -1

/-- Model of updateLastNotifiedExpiration: the SQL UPDATE sets the
lastNotifiedExpiration column on every Users row whose id matches; it creates
no row. -/
def updateLastNotifiedExpiration (db : DBState) (userID : Nat) (v : Int) :
    DBState :=
  { db with
    users := db.users.map (fun r =>
      if r.id = userID then { r with lastNotifiedExpiration := some v } else r) }

/-- Model of getUserSubscriptions: all subscription rows of one user. -/
def getUserSubscriptions (db : DBState) (userID : Nat) : List Subscription :=
  (db.subscriptions.filter (fun p => p.1 = userID)).map (fun p => p.2)

/-- Model of deletePushSubscription: delete every subscription row whose
endpoint matches, regardless of user. -/
def deletePushSubscription (db : DBState) (sub : Subscription) : DBState :=
  { db with
    subscriptions := db.subscriptions.filter (fun p =>
      !(p.2.endpoint = sub.endpoint)) }

/-- The WHERE clause of the matching query in getUsersToBeNotified, read off
one Filters row: minimum rarity at most the gear rarity, name column empty or
equal to the gear name, and for each of ability, type and brand either the
wildcard column or the per-column boolean selected by the gear's value. -/
def filterMatchesGear (f : Filter) (g : Gear) : Bool :=
  f.minimumRarity ≤ g.rarity
    && (f.gearName = "" || f.gearName = g.name)
    && (f.gearAbilities.isEmpty || f.gearAbilities.contains g.ability)
    && (f.gearTypes.isEmpty || f.gearTypes.contains g.gtype)
    && (f.gearBrands.isEmpty || f.gearBrands.contains g.brand)

/-- Whether some filter paired to the user in UsersToFilters matches the
gear (the two inner CTEs of the matching query). -/
def userHasMatchingFilter (db : DBState) (g : Gear) (userID : Nat) : Bool :=
  db.usersToFilters.any (fun p =>
    p.1 = userID && db.filters.any (fun f => f.1 = p.2 && filterMatchesGear f.2 g))

/-- Model of getUsersToBeNotified: reject names failing the allow-list with an
IllegalArgumentError, otherwise return the id and code of every user paired
with a matching filter. -/
def getUsersToBeNotified (db : DBState) (g : Gear) :
    Except String (List (Nat × String)) :=
  if !validGearName g.name then
    .error "Gear name contains special characters."
  else
    .ok ((db.users.filter (fun r => userHasMatchingFilter db g r.id)).map
      (fun r => (r.id, r.code)))

/-- A store whose Filters table holds the single row (fid, f), owned through
UsersToFilters by the single user (uid, code, wm); subscriptions and cache are
arbitrary. This is the matcher configuration of the contract
match(item, set-of-one-filter). -/
def singleFilterDB (uid : Nat) (code : String) (wm : Option Int) (fid : Nat)
    (f : Filter) (subs : List (Nat × Subscription))
    (cache : Option (List Gear)) : DBState :=
  { users := [{ id := uid, code := code, lastNotifiedExpiration := wm }]
    filters := [(fid, f)]
    usersToFilters := [(uid, fid)]
    subscriptions := subs
    cachedGearData := cache }

/-- Modelled from the spec: getNewGearItems of lib/gear_loader.ts is not under
src. Section 4.1 specifies diff(previous, fetched) as the items of fetched
whose identity does not appear in previous, and every fetched item when
previous is empty. -/
def getNewGearItems (previous fetched : List Gear) : List Gear :=
  fetched.filter (fun g => !(previous.any (fun c => c.id = g.id)))

/-- Modelled from the spec: updateCachedRawGearData of lib/gear_loader.ts is
not under src. It persists the fetched raw payload as the new snapshot
(saveSnapshot of section 6). -/
def updateCachedRawGearData (db : DBState) (data : List Gear) : DBState :=
  { db with cachedGearData := some data }

/-- One lookup of getUsersToNotify, per new item, in list order. A gear whose
name fails the allow-list makes getUsersToBeNotified reject; because that
function is async, the throw is a promise rejection that the synchronous
try/catch inside the promise executor never observes, so the wrapper promise
pushed for that item never settles and the awaited Promise.all never
resolves. none models that stuck aggregate await. -/
def getUsersToNotify (db : DBState) : List Gear →
    Option (List (Gear × List (Nat × String)))
  | [] => some []
  | g :: rest =>
    match getUsersToBeNotified db g, getUsersToNotify db rest with
    | .ok userMap, some l => some ((g, userMap) :: l)
    | _, _ => none

/-- Model of getUserGear: the items whose user map contains the user, in map
insertion order (the order of the new-gear list). -/
def getUserGear (gearToUsers : List (Gear × List (Nat × String)))
    (userID : Nat) : List Gear :=
  (gearToUsers.filter (fun gm => gm.2.any (fun p => p.1 = userID))).map
    (fun gm => gm.1)

/-- JavaScript Map.set: replace the value of an existing key in place,
otherwise append the binding. -/
def mapSet (m : List (Nat × String)) (k : Nat) (v : String) :
    List (Nat × String) :=
  if m.any (fun p => p.1 = k) then
    m.map (fun p => if p.1 = k then (k, v) else p)
  else
    m ++ [(k, v)]

/-- Insert every binding of one user map into the accumulated map (the spread
union of aggregateUsers). -/
def insertAllUsers (acc : List (Nat × String)) :
    List (Nat × String) → List (Nat × String)
  | [] => acc
  | p :: rest => insertAllUsers (mapSet acc p.1 p.2) rest

/-- Model of aggregateUsers: union of all per-item user maps. -/
def aggregateUsersAux (acc : List (Nat × String)) :
    List (Gear × List (Nat × String)) → List (Nat × String)
  | [] => acc
  | gm :: rest => aggregateUsersAux (insertAllUsers acc gm.2) rest

/-- Model of aggregateUsers: union of all per-item user maps, built with
JavaScript Map semantics. -/
def aggregateUsers (gearToUsers : List (Gear × List (Nat × String))) :
    List (Nat × String) :=
  aggregateUsersAux [] gearToUsers

/-- Model of generateNotificationOptions: the TTL field, the floor of the
millisecond distance from now to the gear expiration divided by 1000
(Math.floor of a real division is flooring integer division). -/
def generateNotificationOptions (g : Gear) (now : Int) : Int :=
  Int.fdiv (g.expiration - now) 1000

/-- Classification of one webpush send: success, a WebPushError with status
404, 410 or 403 (endpoint not found, subscription gone, bad credentials), or
any other error, which trySendNotification rethrows. -/
inductive SendOutcome where
  | success
  | permanentFailure
  | otherFailure
deriving DecidableEq, Repr

/-- Storage side effects and external calls of one cycle, in issue order. -/
inductive Event where
  | fetchAPI
  | send (sub : Subscription) (g : Gear) (userID : Nat)
  | deleteSub (endpoint : String)
  | setWatermark (userID : Nat) (v : Int)
  | commitSnapshot (data : List Gear)
deriving DecidableEq, Repr

/-- The coarse response of the trigger endpoint, plus hang for a request
whose awaited promise never settles. -/
inductive HStatus where
  | ok
  | tooEarly
  | unauthorized
  | internalError
  | hang
deriving DecidableEq, Repr

/-- Model of trySendNotification for one (subscription, item) attempt, given
the webpush outcome: on success return normally; on a permanent failure
delete the subscription rows with that endpoint and return undefined; on any
other error rethrow (the Bool records the rethrow). -/
def trySendNotification (db : DBState) (sub : Subscription) (g : Gear)
    (userID : Nat) (oc : SendOutcome) : DBState × List Event × Bool :=
  match oc with
  | .success => (db, [Event.send sub g userID], false)
  | .permanentFailure =>
    (deletePushSubscription db sub,
      [Event.send sub g userID, Event.deleteSub sub.endpoint], false)
  | .otherFailure => (db, [Event.send sub g userID], true)

/-- The inner loop of the handler's dispatch step: one notification per item
of the user's gear list, sent to one subscription. -/
def sendGearList (outcome : Subscription → Gear → SendOutcome) (userID : Nat)
    (sub : Subscription) : List Gear → DBState → DBState × List Event × Bool
  | [], db => (db, [], false)
  | g :: rest, db =>
    let r := trySendNotification db sub g userID (outcome sub g)
    let r2 := sendGearList outcome userID sub rest r.1
    (r2.1, r.2.1 ++ r2.2.1, r.2.2 || r2.2.2)

/-- The outer loop of the handler's dispatch step: every subscription of the
user receives one notification per item. -/
def sendAll (outcome : Subscription → Gear → SendOutcome) (userID : Nat)
    (userGear : List Gear) : List Subscription → DBState →
    DBState × List Event × Bool
  | [], db => (db, [], false)
  | sub :: rest, db =>
    let r := sendGearList outcome userID sub userGear db
    let r2 := sendAll outcome userID userGear rest r.1
    (r2.1, r.2.1 ++ r2.2.1, r.2.2 || r2.2.2)

/-- Result of the per-user loop: updated store, issued events, whether some
send rethrew (the awaited Promise.all then rejects, giving a 500 response),
and whether a synchronous TypeError escaped (reading the expiration of the
last element of an empty user gear list). -/
structure LoopResult where
  db : DBState
  events : List Event
  threw : Bool
  crashed : Bool
deriving DecidableEq, Repr

/-- One iteration of the handler's per-user loop: compute the user's gear
list and its latest expiration (a TypeError if the list is empty), skip the
user when that expiration is at most the stored watermark or when the user
has no subscriptions, otherwise send every notification and, if none of this
user's sends rethrew, persist the new watermark. -/
def processUser (outcome : Subscription → Gear → SendOutcome)
    (gearToUsers : List (Gear × List (Nat × String))) (db : DBState)
    (userID : Nat) : LoopResult :=
  match (getUserGear gearToUsers userID).getLast? with
  | none => { db := db, events := [], threw := false, crashed := true }
  | some lastG =>
    if lastG.expiration ≤ getLastNotifiedExpiration db userID then
      { db := db, events := [], threw := false, crashed := false }
    else if (getUserSubscriptions db userID).isEmpty then
      { db := db, events := [], threw := false, crashed := false }
    else if (sendAll outcome userID (getUserGear gearToUsers userID)
        (getUserSubscriptions db userID) db).2.2 then
      { db := (sendAll outcome userID (getUserGear gearToUsers userID)
          (getUserSubscriptions db userID) db).1
        events := (sendAll outcome userID (getUserGear gearToUsers userID)
          (getUserSubscriptions db userID) db).2.1
        threw := true, crashed := false }
    else
      { db := updateLastNotifiedExpiration
          (sendAll outcome userID (getUserGear gearToUsers userID)
            (getUserSubscriptions db userID) db).1 userID lastG.expiration
        events := (sendAll outcome userID (getUserGear gearToUsers userID)
          (getUserSubscriptions db userID) db).2.1
          ++ [Event.setWatermark userID lastG.expiration]
        threw := false, crashed := false }

/-- The handler's per-user loop over the aggregated user map. A crash aborts
the loop (a synchronous throw inside the handler body); a rethrown send error
only marks the cycle as failed once the promises are awaited. -/
def notifyLoop (outcome : Subscription → Gear → SendOutcome)
    (gearToUsers : List (Gear × List (Nat × String))) :
    List (Nat × String) → DBState → LoopResult
  | [], db => { db := db, events := [], threw := false, crashed := false }
  | (userID, _) :: rest, db =>
    let r1 := processUser outcome gearToUsers db userID
    if r1.crashed then r1
    else
      let r2 := notifyLoop outcome gearToUsers rest r1.db
      { db := r2.db, events := r1.events ++ r2.events,
        threw := r1.threw || r2.threw, crashed := r2.crashed }

/-- The authorization step of the handler: a missing or empty ACTION_SECRET
skips the check with a warning; otherwise the provided header must equal the
secret. -/
def authOK (secretKey providedKey : Option String) : Bool :=
  match secretKey with
  | none => true
  | some sk => if sk = "" then true else providedKey = some sk

/-- The snapshot freshness check of the handler: cached gear is present and
its first element (the earliest expiration, the list being sorted ascending)
still expires after now. -/
def cacheStillCurrent (now : Int) (cachedGear : List Gear) : Bool :=
  match cachedGear with
  | [] => false
  | g :: _ => now < g.expiration

/-- Result of one trigger invocation: response status, the issued events in
order, and the final store. -/
structure CycleOutcome where
  status : HStatus
  events : List Event
  db : DBState
deriving DecidableEq, Repr

/-- Steps 2 to 7 of the handler once the inventory has been fetched: look up
the users of every new item, aggregate them, run the per-user dispatch loop,
and, when nothing crashed or threw, commit the fetched snapshot last. -/
def dispatchAndCommit (fetchedGear : List Gear)
    (outcome : Subscription → Gear → SendOutcome) (db : DBState)
    (newGear : List Gear) : CycleOutcome :=
  match getUsersToNotify db newGear with
  | none => { status := .hang, events := [Event.fetchAPI], db := db }
  | some gearToUsers =>
    let r := notifyLoop outcome gearToUsers (aggregateUsers gearToUsers) db
    if r.crashed || r.threw then
      { status := .internalError, events := Event.fetchAPI :: r.events,
        db := r.db }
    else
      { status := .ok,
        events := Event.fetchAPI ::
          (r.events ++ [Event.commitSnapshot fetchedGear]),
        db := updateCachedRawGearData r.db fetchedGear }

/-- Model of the check-and-notify handler: authorization, snapshot freshness
short-circuit, inventory fetch, diff, user lookup, per-user dispatch with
watermark updates, and the final snapshot commit. -/
def handler (secretKey providedKey : Option String) (now : Int)
    (fetchedGear : List Gear) (outcome : Subscription → Gear → SendOutcome)
    (db : DBState) : CycleOutcome :=
  if !(authOK secretKey providedKey) then
    { status := .unauthorized, events := [], db := db }
  else if cacheStillCurrent now (db.cachedGearData.getD []) then
    { status := .tooEarly, events := [], db := db }
  else
    dispatchAndCommit fetchedGear outcome db
      (getNewGearItems (db.cachedGearData.getD []) fetchedGear)

/-- The inputs of one trigger invocation, for iterating cycles. -/
structure CycleInput where
  secretKey : Option String
  providedKey : Option String
  now : Int
  fetchedGear : List Gear
  outcome : Subscription → Gear → SendOutcome

/-- Run one cycle from a CycleInput. -/
def runCycleInput (i : CycleInput) (db : DBState) : CycleOutcome :=
  handler i.secretKey i.providedKey i.now i.fetchedGear i.outcome db

/-- The store after a sequence of trigger invocations. -/
def runCycles (inputs : List CycleInput) (db : DBState) : DBState :=
  inputs.foldl (fun d i => (runCycleInput i d).db) db

/-- Event classifiers used by the trace properties. -/
def isSetWatermark : Event → Bool
  | Event.setWatermark _ _ => true
  | _ => false

/-- Whether an event is the snapshot commit. -/
def isCommit : Event → Bool
  | Event.commitSnapshot _ => true
  | _ => false

/-- Whether an event is a notification send attempt. -/
def isSend : Event → Bool
  | Event.send _ _ _ => true
  | _ => false

/-- No watermark write occurs after any snapshot commit in the trace. -/
def noWatermarkAfterCommit : List Event → Bool
  | [] => true
  | e :: rest =>
    if isCommit e then
      rest.all (fun x => !(isSetWatermark x)) && noWatermarkAfterCommit rest
    else
      noWatermarkAfterCommit rest

/-- The expiration of the last element of the user's matched gear list for
one aggregated batch: the per-user batch watermark the handler computes. -/
def batchLatest (gearToUsers : List (Gear × List (Nat × String)))
    (userID : Nat) : Option Int :=
  match (getUserGear gearToUsers userID).getLast? with
  | some g => some g.expiration
  | none => none

/-- The batch watermark a cycle would compute for one user, from the stored
snapshot and the fetched gear (none when the user matches nothing or the user
lookup never settles). -/
def cycleBatchWatermark (db : DBState) (fetchedGear : List Gear)
    (userID : Nat) : Option Int :=
  match getUsersToNotify db
      (getNewGearItems (db.cachedGearData.getD []) fetchedGear) with
  | none => none
  | some gearToUsers => batchLatest gearToUsers userID

/-- A gear item expiring at time 5, used by concrete runs. -/
def gearA : Gear :=
  { id := "ga", name := "Gear A", gtype := "HeadGear", brand := "Zekko",
    ability := "Haunt", rarity := 1, expiration := 5, image := "" }

/-- A gear item expiring at time 10, used by concrete runs. -/
def gearB : Gear :=
  { id := "gb", name := "Gear B", gtype := "ClothingGear", brand := "Zink",
    ability := "Tenacity", rarity := 1, expiration := 10, image := "" }

/-- A gear item whose name fails the allow-list (it contains an asterisk). -/
def gearBad : Gear :=
  { id := "gx", name := "Bad*Name", gtype := "HeadGear", brand := "Zekko",
    ability := "Haunt", rarity := 1, expiration := 20, image := "" }

/-- A gear item already expired relative to time 1000. -/
def gearPast : Gear :=
  { id := "gp", name := "Gear P", gtype := "ShoesGear", brand := "Forge",
    ability := "Comeback", rarity := 0, expiration := 500, image := "" }

/-- One concrete subscription row. -/
def subE : Subscription :=
  { endpoint := "endpoint-1", expirationTime := 0, auth := "a", p256dh := "p" }

/-- The all-wildcard filter with minimum rarity zero. -/
def wildcardFilter : Filter :=
  { gearName := "", minimumRarity := 0, gearTypes := [], gearBrands := [],
    gearAbilities := [] }

/-- A store with one user (id 1) holding the all-wildcard filter, one
subscription and a stored watermark of 7; the snapshot cache is empty. -/
def dbWM7 : DBState :=
  { users := [{ id := 1, code := "u", lastNotifiedExpiration := some 7 }]
    filters := [(10, wildcardFilter)]
    usersToFilters := [(1, 10)]
    subscriptions := [(1, subE)]
    cachedGearData := none }

/-- The same store as dbWM7 with the stored watermark equal to 10. -/
def dbWM10 : DBState :=
  { users := [{ id := 1, code := "u", lastNotifiedExpiration := some 10 }]
    filters := [(10, wildcardFilter)]
    usersToFilters := [(1, 10)]
    subscriptions := [(1, subE)]
    cachedGearData := none }

/-- A gear item expiring at time 100, used as a fresh cached snapshot. -/
def gearF : Gear :=
  { id := "gf", name := "Gear F", gtype := "HeadGear", brand := "Zekko",
    ability := "Haunt", rarity := 1, expiration := 100, image := "" }

/-- The same store as dbWM7 with no watermark and a fresh cached snapshot
whose single item expires at time 100. -/
def dbFresh : DBState :=
  { users := [{ id := 1, code := "u", lastNotifiedExpiration := none }]
    filters := [(10, wildcardFilter)]
    usersToFilters := [(1, 10)]
    subscriptions := [(1, subE)]
    cachedGearData := some [gearF] }

/-- A webpush stub where every send succeeds. -/
def allSuccess : Subscription → Gear → SendOutcome := fun _ _ => .success

/-- A second concrete subscription row with a different endpoint. -/
def subF : Subscription :=
  { endpoint := "endpoint-2", expirationTime := 0, auth := "a", p256dh := "p" }

/-- The store dbWM7 with a second subscription for the same user. -/
def dbTwoSubs : DBState :=
  { users := [{ id := 1, code := "u", lastNotifiedExpiration := some 7 }]
    filters := [(10, wildcardFilter)]
    usersToFilters := [(1, 10)]
    subscriptions := [(1, subE), (1, subF)]
    cachedGearData := none }

/-- The match condition of one Filters row, written as a proposition. -/
theorem filterMatchesGear_iff (f : Filter) (g : Gear) :
    filterMatchesGear f g = true ↔
      f.minimumRarity ≤ g.rarity
        ∧ (f.gearName = "" ∨ f.gearName = g.name)
        ∧ (f.gearTypes = [] ∨ g.gtype ∈ f.gearTypes)
        ∧ (f.gearBrands = [] ∨ g.brand ∈ f.gearBrands)
        ∧ (f.gearAbilities = [] ∨ g.ability ∈ f.gearAbilities) := by
  simp only [filterMatchesGear, Bool.and_eq_true, Bool.or_eq_true,
    decide_eq_true_eq, List.isEmpty_iff, List.contains_eq_any_beq,
    List.any_eq_true, beq_iff_eq]
  constructor
  · rintro ⟨⟨⟨⟨h1, h2⟩, h5⟩, h3⟩, h4⟩
    refine ⟨h1, h2, ?_, ?_, ?_⟩
    · rcases h3 with h3 | ⟨x, hx, rfl⟩
      · exact Or.inl h3
      · exact Or.inr hx
    · rcases h4 with h4 | ⟨x, hx, rfl⟩
      · exact Or.inl h4
      · exact Or.inr hx
    · rcases h5 with h5 | ⟨x, hx, rfl⟩
      · exact Or.inl h5
      · exact Or.inr hx
  · rintro ⟨h1, h2, h3, h4, h5⟩
    refine ⟨⟨⟨⟨h1, h2⟩, ?_⟩, ?_⟩, ?_⟩
    · rcases h5 with h5 | h5
      · exact Or.inl h5
      · exact Or.inr ⟨_, h5, rfl⟩
    · rcases h3 with h3 | h3
      · exact Or.inl h3
      · exact Or.inr ⟨_, h3, rfl⟩
    · rcases h4 with h4 | h4
      · exact Or.inl h4
      · exact Or.inr ⟨_, h4, rfl⟩

/-- C7: for an item with an allow-listed name and a filter owned by a single
user, the matcher's result contains that owner if and only if the item's
rarity is at least the filter's minimum rarity, the name constraint is unset
(empty) or equals the item's name, and each of the type, brand and ability
dimensions is wildcarded (empty list) or contains the item's value. -/
theorem matcher_iff_all_clauses (uid : Nat) (code : String) (wm : Option Int)
    (fid : Nat) (f : Filter) (g : Gear) (subs : List (Nat × Subscription))
    (cache : Option (List Gear))
    (hname : validGearName g.name = true) :
    getUsersToBeNotified (singleFilterDB uid code wm fid f subs cache) g =
      .ok (if f.minimumRarity ≤ g.rarity
            ∧ (f.gearName = "" ∨ f.gearName = g.name)
            ∧ (f.gearTypes = [] ∨ g.gtype ∈ f.gearTypes)
            ∧ (f.gearBrands = [] ∨ g.brand ∈ f.gearBrands)
            ∧ (f.gearAbilities = [] ∨ g.ability ∈ f.gearAbilities)
          then [(uid, code)] else []) := by
  unfold getUsersToBeNotified
  rw [hname]
  simp only [Bool.not_true, Bool.false_eq_true, if_false, singleFilterDB]
  by_cases hc : f.minimumRarity ≤ g.rarity
      ∧ (f.gearName = "" ∨ f.gearName = g.name)
      ∧ (f.gearTypes = [] ∨ g.gtype ∈ f.gearTypes)
      ∧ (f.gearBrands = [] ∨ g.brand ∈ f.gearBrands)
      ∧ (f.gearAbilities = [] ∨ g.ability ∈ f.gearAbilities)
  · rw [if_pos hc]
    have hm : filterMatchesGear f g = true := (filterMatchesGear_iff f g).mpr hc
    simp [userHasMatchingFilter, hm]
  · rw [if_neg hc]
    have hm : filterMatchesGear f g = false := by
      cases hfm : filterMatchesGear f g
      · rfl
      · exact absurd ((filterMatchesGear_iff f g).mp hfm) hc
    simp [userHasMatchingFilter, hm]

/-- A watermark update preserves row ids. -/
theorem upd_id (u : Nat) (v : Int) (r : UserRow) :
    (if r.id = u then { r with lastNotifiedExpiration := some v } else r).id
      = r.id := by
  split <;> rfl

/-- A watermark update commutes with row lookup on the Users table. -/
theorem find?_users_update (l : List UserRow) (u : Nat) (v : Int) (x : Nat) :
    (l.map (fun r =>
        if r.id = u then { r with lastNotifiedExpiration := some v } else r)).find?
        (fun r => r.id = x) =
      (l.find? (fun r => r.id = x)).map (fun r =>
        if r.id = u then { r with lastNotifiedExpiration := some v } else r) := by
  induction l with
  | nil => rfl
  | cons a l ih =>
    rw [List.map_cons, List.find?_cons, List.find?_cons]
    have hid : decide ((if a.id = u then
        { a with lastNotifiedExpiration := some v } else a).id = x) =
        decide (a.id = x) := by
      rw [upd_id]
    rw [hid]
    by_cases ha : a.id = x
    · simp [ha]
    · simp [ha]
      simpa using ih

/-- Updating one user's watermark leaves every other user's stored watermark
unchanged. -/
theorem wm_update_other (db : DBState) (u : Nat) (v : Int) (x : Nat)
    (h : x ≠ u) :
    getLastNotifiedExpiration (updateLastNotifiedExpiration db u v) x =
      getLastNotifiedExpiration db x := by
  unfold getLastNotifiedExpiration updateLastNotifiedExpiration
  simp only
  rw [find?_users_update]
  cases hf : db.users.find? (fun r => r.id = x) with
  | none => rfl
  | some r =>
    have hid : r.id = x := by
      have := List.find?_some hf
      simpa using this
    have hru : ¬(r.id = u) := by rw [hid]; exact h
    simp [hru]

/-- Updating one user's watermark to a value at least the stored one never
decreases that user's stored watermark. -/
theorem wm_update_self_ge (db : DBState) (u : Nat) (v : Int)
    (h : getLastNotifiedExpiration db u ≤ v) :
    getLastNotifiedExpiration db u ≤
      getLastNotifiedExpiration (updateLastNotifiedExpiration db u v) u := by
  unfold getLastNotifiedExpiration at h ⊢
  unfold updateLastNotifiedExpiration
  simp only
  rw [find?_users_update]
  cases hf : db.users.find? (fun r => r.id = u) with
  | none => rw [hf] at h; simp
  | some r =>
    rw [hf] at h
    have hid : r.id = u := by simpa using List.find?_some hf
    simp only [Option.map_some', hid, if_pos]
    exact h

/-- Updating one user's watermark to a value at least the stored one never
decreases any stored watermark. -/
theorem wm_update_mono (db : DBState) (u : Nat) (v : Int)
    (h : getLastNotifiedExpiration db u ≤ v) (x : Nat) :
    getLastNotifiedExpiration db x ≤
      getLastNotifiedExpiration (updateLastNotifiedExpiration db u v) x := by
  by_cases hx : x = u
  · rw [hx]
    exact wm_update_self_ge db u v h
  · rw [wm_update_other db u v x hx]

/-- The stored watermark depends only on the Users table. -/
theorem wm_eq_of_users_eq (db1 db2 : DBState) (h : db1.users = db2.users)
    (x : Nat) :
    getLastNotifiedExpiration db1 x = getLastNotifiedExpiration db2 x := by
  unfold getLastNotifiedExpiration
  rw [h]

/-- trySendNotification never touches the Users table. -/
theorem trySendNotification_users (db : DBState) (sub : Subscription)
    (g : Gear) (uid : Nat) (oc : SendOutcome) :
    (trySendNotification db sub g uid oc).1.users = db.users := by
  cases oc <;> rfl

/-- trySendNotification only ever deletes subscription rows. -/
theorem trySendNotification_subs (db : DBState) (sub : Subscription)
    (g : Gear) (uid : Nat) (oc : SendOutcome) (p : Nat × Subscription)
    (hp : p ∈ (trySendNotification db sub g uid oc).1.subscriptions) :
    p ∈ db.subscriptions := by
  cases oc
  · exact hp
  · exact List.mem_of_mem_filter hp
  · exact hp

/-- sendGearList never touches the Users table. -/
theorem sendGearList_users (o : Subscription → Gear → SendOutcome) (uid : Nat)
    (sub : Subscription) (gs : List Gear) (db : DBState) :
    (sendGearList o uid sub gs db).1.users = db.users := by
  induction gs generalizing db with
  | nil => rfl
  | cons g rest ih =>
    simp only [sendGearList]
    rw [ih, trySendNotification_users]

/-- sendGearList only ever deletes subscription rows. -/
theorem sendGearList_subs (o : Subscription → Gear → SendOutcome) (uid : Nat)
    (sub : Subscription) (gs : List Gear) (db : DBState)
    (p : Nat × Subscription)
    (hp : p ∈ (sendGearList o uid sub gs db).1.subscriptions) :
    p ∈ db.subscriptions := by
  induction gs generalizing db with
  | nil => exact hp
  | cons g rest ih =>
    simp only [sendGearList] at hp
    exact trySendNotification_subs db sub g uid (o sub g) p (ih _ hp)

/-- sendAll never touches the Users table. -/
theorem sendAll_users (o : Subscription → Gear → SendOutcome) (uid : Nat)
    (userGear : List Gear) (subs : List Subscription) (db : DBState) :
    (sendAll o uid userGear subs db).1.users = db.users := by
  induction subs generalizing db with
  | nil => rfl
  | cons sub rest ih =>
    simp only [sendAll]
    rw [ih, sendGearList_users]

/-- sendAll only ever deletes subscription rows. -/
theorem sendAll_subs (o : Subscription → Gear → SendOutcome) (uid : Nat)
    (userGear : List Gear) (subs : List Subscription) (db : DBState)
    (p : Nat × Subscription)
    (hp : p ∈ (sendAll o uid userGear subs db).1.subscriptions) :
    p ∈ db.subscriptions := by
  induction subs generalizing db with
  | nil => exact hp
  | cons sub rest ih =>
    simp only [sendAll] at hp
    exact sendGearList_subs o uid sub userGear db p (ih _ hp)

/-- Branch equation: an empty matched gear list makes the iteration crash. -/
theorem processUser_crash (o : Subscription → Gear → SendOutcome)
    (gtum : List (Gear × List (Nat × String))) (db : DBState) (uid : Nat)
    (h : (getUserGear gtum uid).getLast? = none) :
    processUser o gtum db uid =
      { db := db, events := [], threw := false, crashed := true } := by
  unfold processUser
  rw [h]

/-- Branch equation: the user is skipped when their batch watermark is at
most the stored one. -/
theorem processUser_notified (o : Subscription → Gear → SendOutcome)
    (gtum : List (Gear × List (Nat × String))) (db : DBState) (uid : Nat)
    (lastG : Gear) (h : (getUserGear gtum uid).getLast? = some lastG)
    (h1 : lastG.expiration ≤ getLastNotifiedExpiration db uid) :
    processUser o gtum db uid =
      { db := db, events := [], threw := false, crashed := false } := by
  unfold processUser
  rw [h]
  simp only [if_pos h1]

/-- Branch equation: the user is skipped when they have no subscriptions. -/
theorem processUser_nosubs (o : Subscription → Gear → SendOutcome)
    (gtum : List (Gear × List (Nat × String))) (db : DBState) (uid : Nat)
    (lastG : Gear) (h : (getUserGear gtum uid).getLast? = some lastG)
    (h1 : ¬(lastG.expiration ≤ getLastNotifiedExpiration db uid))
    (h2 : (getUserSubscriptions db uid).isEmpty = true) :
    processUser o gtum db uid =
      { db := db, events := [], threw := false, crashed := false } := by
  unfold processUser
  simp only [h, if_neg h1, if_pos h2]

/-- Branch equation: a rethrown send marks the iteration as failed, with no
watermark write. -/
theorem processUser_threw (o : Subscription → Gear → SendOutcome)
    (gtum : List (Gear × List (Nat × String))) (db : DBState) (uid : Nat)
    (lastG : Gear) (h : (getUserGear gtum uid).getLast? = some lastG)
    (h1 : ¬(lastG.expiration ≤ getLastNotifiedExpiration db uid))
    (h2 : ¬((getUserSubscriptions db uid).isEmpty = true))
    (h3 : (sendAll o uid (getUserGear gtum uid)
      (getUserSubscriptions db uid) db).2.2 = true) :
    processUser o gtum db uid =
      { db := (sendAll o uid (getUserGear gtum uid)
          (getUserSubscriptions db uid) db).1
        events := (sendAll o uid (getUserGear gtum uid)
          (getUserSubscriptions db uid) db).2.1
        threw := true, crashed := false } := by
  unfold processUser
  simp only [h, if_neg h1, if_neg h2, if_pos h3]

/-- Branch equation: when no send rethrew, the sends are followed by the
watermark write. -/
theorem processUser_sent (o : Subscription → Gear → SendOutcome)
    (gtum : List (Gear × List (Nat × String))) (db : DBState) (uid : Nat)
    (lastG : Gear) (h : (getUserGear gtum uid).getLast? = some lastG)
    (h1 : ¬(lastG.expiration ≤ getLastNotifiedExpiration db uid))
    (h2 : ¬((getUserSubscriptions db uid).isEmpty = true))
    (h3 : ¬((sendAll o uid (getUserGear gtum uid)
      (getUserSubscriptions db uid) db).2.2 = true)) :
    processUser o gtum db uid =
      { db := updateLastNotifiedExpiration
          (sendAll o uid (getUserGear gtum uid)
            (getUserSubscriptions db uid) db).1 uid lastG.expiration
        events := (sendAll o uid (getUserGear gtum uid)
          (getUserSubscriptions db uid) db).2.1
          ++ [Event.setWatermark uid lastG.expiration]
        threw := false, crashed := false } := by
  unfold processUser
  simp only [h, if_neg h1, if_neg h2, if_neg h3]

/-- One iteration of the per-user loop never decreases any stored
watermark. -/
theorem processUser_wm_mono (o : Subscription → Gear → SendOutcome)
    (gtum : List (Gear × List (Nat × String))) (db : DBState) (uid x : Nat) :
    getLastNotifiedExpiration db x ≤
      getLastNotifiedExpiration (processUser o gtum db uid).db x := by
  cases hlast : (getUserGear gtum uid).getLast? with
  | none => rw [processUser_crash o gtum db uid hlast]
  | some lastG =>
    by_cases h1 : lastG.expiration ≤ getLastNotifiedExpiration db uid
    · rw [processUser_notified o gtum db uid lastG hlast h1]
    · by_cases h2 : (getUserSubscriptions db uid).isEmpty = true
      · rw [processUser_nosubs o gtum db uid lastG hlast h1 h2]
      · have husers := sendAll_users o uid (getUserGear gtum uid)
          (getUserSubscriptions db uid) db
        have heq : ∀ y, getLastNotifiedExpiration
            (sendAll o uid (getUserGear gtum uid)
              (getUserSubscriptions db uid) db).1 y =
            getLastNotifiedExpiration db y :=
          fun y => wm_eq_of_users_eq _ _ husers y
        by_cases h3 : (sendAll o uid (getUserGear gtum uid)
            (getUserSubscriptions db uid) db).2.2 = true
        · rw [processUser_threw o gtum db uid lastG hlast h1 h2 h3]
          simp only
          rw [heq x]
        · rw [processUser_sent o gtum db uid lastG hlast h1 h2 h3]
          simp only
          calc getLastNotifiedExpiration db x
              = getLastNotifiedExpiration (sendAll o uid (getUserGear gtum uid)
                  (getUserSubscriptions db uid) db).1 x := (heq x).symm
            _ ≤ _ := by
                apply wm_update_mono
                rw [heq uid]
                omega

/-- One iteration of the per-user loop only ever deletes subscription
rows. -/
theorem processUser_subs (o : Subscription → Gear → SendOutcome)
    (gtum : List (Gear × List (Nat × String))) (db : DBState) (uid : Nat)
    (p : Nat × Subscription)
    (hp : p ∈ (processUser o gtum db uid).db.subscriptions) :
    p ∈ db.subscriptions := by
  cases hlast : (getUserGear gtum uid).getLast? with
  | none =>
    rw [processUser_crash o gtum db uid hlast] at hp
    exact hp
  | some lastG =>
    by_cases h1 : lastG.expiration ≤ getLastNotifiedExpiration db uid
    · rw [processUser_notified o gtum db uid lastG hlast h1] at hp
      exact hp
    · by_cases h2 : (getUserSubscriptions db uid).isEmpty = true
      · rw [processUser_nosubs o gtum db uid lastG hlast h1 h2] at hp
        exact hp
      · by_cases h3 : (sendAll o uid (getUserGear gtum uid)
            (getUserSubscriptions db uid) db).2.2 = true
        · rw [processUser_threw o gtum db uid lastG hlast h1 h2 h3] at hp
          exact sendAll_subs o uid _ _ db p hp
        · rw [processUser_sent o gtum db uid lastG hlast h1 h2 h3] at hp
          exact sendAll_subs o uid _ _ db p hp

/-- The per-user loop never decreases any stored watermark. -/
theorem notifyLoop_wm_mono (o : Subscription → Gear → SendOutcome)
    (gtum : List (Gear × List (Nat × String))) (us : List (Nat × String))
    (db : DBState) (x : Nat) :
    getLastNotifiedExpiration db x ≤
      getLastNotifiedExpiration (notifyLoop o gtum us db).db x := by
  induction us generalizing db with
  | nil => simp [notifyLoop]
  | cons u rest ih =>
    obtain ⟨uid, code⟩ := u
    simp only [notifyLoop]
    cases hcr : (processUser o gtum db uid).crashed
    · simp only [hcr, Bool.false_eq_true, if_false]
      calc getLastNotifiedExpiration db x
          ≤ getLastNotifiedExpiration (processUser o gtum db uid).db x :=
            processUser_wm_mono o gtum db uid x
        _ ≤ _ := ih _
    · simp only [hcr, if_true]
      exact processUser_wm_mono o gtum db uid x

/-- The per-user loop only ever deletes subscription rows. -/
theorem notifyLoop_subs (o : Subscription → Gear → SendOutcome)
    (gtum : List (Gear × List (Nat × String))) (us : List (Nat × String))
    (db : DBState) (p : Nat × Subscription)
    (hp : p ∈ (notifyLoop o gtum us db).db.subscriptions) :
    p ∈ db.subscriptions := by
  induction us generalizing db with
  | nil => simpa [notifyLoop] using hp
  | cons u rest ih =>
    obtain ⟨uid, code⟩ := u
    simp only [notifyLoop] at hp
    cases hcr : (processUser o gtum db uid).crashed
    · rw [hcr] at hp
      simp only [Bool.false_eq_true, if_false] at hp
      exact processUser_subs o gtum db uid p (ih _ hp)
    · rw [hcr] at hp
      simp only [if_true] at hp
      exact processUser_subs o gtum db uid p hp

/-- One trigger invocation only ever deletes subscription rows. -/
theorem handler_subs (sk pk : Option String) (now : Int)
    (fetched : List Gear) (o : Subscription → Gear → SendOutcome)
    (db : DBState) (p : Nat × Subscription)
    (hp : p ∈ (handler sk pk now fetched o db).db.subscriptions) :
    p ∈ db.subscriptions := by
  unfold handler at hp
  by_cases h1 : authOK sk pk
  · rw [h1] at hp
    simp only [Bool.not_true, Bool.false_eq_true, if_false] at hp
    by_cases h2 : cacheStillCurrent now (db.cachedGearData.getD [])
    · rw [if_pos h2] at hp; exact hp
    · rw [if_neg h2] at hp
      unfold dispatchAndCommit at hp
      cases hgtum : getUsersToNotify db
          (getNewGearItems (db.cachedGearData.getD []) fetched) with
      | none => rw [hgtum] at hp; exact hp
      | some gtum =>
        rw [hgtum] at hp
        simp only at hp
        cases hc : ((notifyLoop o gtum (aggregateUsers gtum) db).crashed
            || (notifyLoop o gtum (aggregateUsers gtum) db).threw)
        · rw [hc] at hp
          simp only [Bool.false_eq_true, if_false] at hp
          exact notifyLoop_subs o gtum _ db p hp
        · rw [hc] at hp
          simp only [if_true] at hp
          exact notifyLoop_subs o gtum _ db p hp
  · simp only [Bool.not_eq_true] at h1
    rw [h1] at hp
    simpa using hp

/-- A sequence of trigger invocations only ever deletes subscription rows. -/
theorem runCycles_subs (inputs : List CycleInput) (db : DBState)
    (p : Nat × Subscription) (hp : p ∈ (runCycles inputs db).subscriptions) :
    p ∈ db.subscriptions := by
  induction inputs generalizing db with
  | nil => exact hp
  | cons i rest ih =>
    simp only [runCycles, List.foldl_cons] at hp
    exact handler_subs i.secretKey i.providedKey i.now i.fetchedGear
      i.outcome db p (ih _ hp)

/-- C8: a permanent send failure (endpoint gone, not found, or credentials
mismatch) deletes every subscription row with that endpoint during the
dispatch itself, and cycles never create subscription rows, so after any
number of subsequent cycles no user's subscription list contains a
subscription with that endpoint. -/
theorem permanent_failure_prunes (db : DBState) (sub : Subscription)
    (g : Gear) (uid : Nat) (inputs : List CycleInput) (x : Nat)
    (s : Subscription)
    (hs : s ∈ getUserSubscriptions
      (runCycles inputs
        (trySendNotification db sub g uid SendOutcome.permanentFailure).1) x) :
    s.endpoint ≠ sub.endpoint := by
  unfold getUserSubscriptions at hs
  obtain ⟨p, hpmem, hps⟩ := List.mem_map.mp hs
  have hp1 : p ∈ (runCycles inputs
      (trySendNotification db sub g uid SendOutcome.permanentFailure).1).subscriptions :=
    List.mem_of_mem_filter hpmem
  have hp2 : p ∈ (trySendNotification db sub g uid
      SendOutcome.permanentFailure).1.subscriptions :=
    runCycles_subs inputs _ p hp1
  have hp3 : p ∈ db.subscriptions.filter
      (fun q => !(q.2.endpoint = sub.endpoint)) := hp2
  have hp4 := (List.mem_filter.mp hp3).2
  simp only [Bool.not_eq_eq_eq_not, Bool.not_true, decide_eq_false_iff_not] at hp4
  rw [← hps]
  exact hp4

/-- Witness for C8: in a store with two subscriptions, after a permanent
failure on the first endpoint, the surviving subscription has a different
endpoint. -/
theorem permanent_failure_prunes_witness : subF.endpoint ≠ subE.endpoint :=
  permanent_failure_prunes dbTwoSubs subE gearA 1 [] 1 subF (by decide)

/-- C9 (amended): the TTL is the floor of the millisecond distance to the
expiration divided by 1000: the number of whole seconds until expiration when
the expiration is not in the past, and negative, rather than zero, when the
expiration has already passed. -/
theorem ttl_floor_seconds (g : Gear) (now : Int) :
    (now ≤ g.expiration →
      generateNotificationOptions g now =
        (((g.expiration - now).toNat / 1000 : Nat) : Int))
    ∧ (g.expiration < now → generateNotificationOptions g now < 0) := by
  constructor
  · intro h
    have h0 : (0:Int) ≤ g.expiration - now := by omega
    unfold generateNotificationOptions
    obtain ⟨n, hn⟩ : ∃ n : Nat, g.expiration - now = (n : Int) :=
      ⟨(g.expiration - now).toNat, (Int.toNat_of_nonneg h0).symm⟩
    rw [hn]
    rw [show ((1000 : Int)) = ((1000 : Nat) : Int) by norm_num]
    rw [← Int.ofNat_fdiv]
    simp [hn]
  · intro h
    unfold generateNotificationOptions
    exact Int.fdiv_neg' (by omega) (by norm_num)

/-- Witness for C9 (amended): a future item expiring at 10 with now 0 gets
TTL 0 whole seconds; the expired item gets a negative TTL. -/
theorem ttl_floor_seconds_witness :
    generateNotificationOptions gearB 0 =
      (((gearB.expiration - 0).toNat / 1000 : Nat) : Int)
    ∧ generateNotificationOptions gearPast 1000 < 0 :=
  ⟨(ttl_floor_seconds gearB 0).1 (by decide),
    (ttl_floor_seconds gearPast 1000).2 (by decide)⟩

/-- C9 counterexample: the item expiring at 500 is already past at now 1000,
yet its TTL is not zero (it is -1): the original claim's zero clause fails. -/
theorem ttl_not_zero_when_expired :
    gearPast.expiration < 1000 ∧ generateNotificationOptions gearPast 1000 ≠ 0 := by
  decide

/-- The events of one send attempt: the attempt itself, possibly followed by
the endpoint deletion. -/
theorem trySendNotification_events (db : DBState) (sub : Subscription)
    (g : Gear) (uid : Nat) (oc : SendOutcome) (e : Event)
    (he : e ∈ (trySendNotification db sub g uid oc).2.1) :
    e = Event.send sub g uid ∨ e = Event.deleteSub sub.endpoint := by
  cases oc <;> simp [trySendNotification] at he <;> tauto

/-- Every event of sendGearList is a send tagged with this user or an
endpoint deletion. -/
theorem sendGearList_events (o : Subscription → Gear → SendOutcome)
    (uid : Nat) (sub : Subscription) (gs : List Gear) (db : DBState)
    (e : Event) (he : e ∈ (sendGearList o uid sub gs db).2.1) :
    (∃ s g1, e = Event.send s g1 uid) ∨ (∃ ep, e = Event.deleteSub ep) := by
  induction gs generalizing db with
  | nil => simp [sendGearList] at he
  | cons g rest ih =>
    simp only [sendGearList] at he
    rw [List.mem_append] at he
    rcases he with he | he
    · rcases trySendNotification_events db sub g uid (o sub g) e he with h | h
      · exact Or.inl ⟨sub, g, h⟩
      · exact Or.inr ⟨sub.endpoint, h⟩
    · exact ih _ he

/-- Every event of sendAll is a send tagged with this user or an endpoint
deletion. -/
theorem sendAll_events (o : Subscription → Gear → SendOutcome) (uid : Nat)
    (userGear : List Gear) (subs : List Subscription) (db : DBState)
    (e : Event) (he : e ∈ (sendAll o uid userGear subs db).2.1) :
    (∃ s g1, e = Event.send s g1 uid) ∨ (∃ ep, e = Event.deleteSub ep) := by
  induction subs generalizing db with
  | nil => simp [sendAll] at he
  | cons sub rest ih =>
    simp only [sendAll] at he
    rw [List.mem_append] at he
    rcases he with he | he
    · exact sendGearList_events o uid sub userGear db e he
    · exact ih _ he

/-- Every event of one per-user iteration is a send tagged with this user, an
endpoint deletion, or the single watermark write, whose value strictly
exceeds the user's stored watermark. -/
theorem processUser_events (o : Subscription → Gear → SendOutcome)
    (gtum : List (Gear × List (Nat × String))) (db : DBState) (uid : Nat)
    (e : Event) (he : e ∈ (processUser o gtum db uid).events) :
    (∃ s g1, e = Event.send s g1 uid) ∨ (∃ ep, e = Event.deleteSub ep)
      ∨ (∃ v, e = Event.setWatermark uid v
          ∧ getLastNotifiedExpiration db uid < v) := by
  cases hlast : (getUserGear gtum uid).getLast? with
  | none =>
    rw [processUser_crash o gtum db uid hlast] at he
    simp at he
  | some lastG =>
    by_cases h1 : lastG.expiration ≤ getLastNotifiedExpiration db uid
    · rw [processUser_notified o gtum db uid lastG hlast h1] at he
      simp at he
    · by_cases h2 : (getUserSubscriptions db uid).isEmpty = true
      · rw [processUser_nosubs o gtum db uid lastG hlast h1 h2] at he
        simp at he
      · by_cases h3 : (sendAll o uid (getUserGear gtum uid)
            (getUserSubscriptions db uid) db).2.2 = true
        · rw [processUser_threw o gtum db uid lastG hlast h1 h2 h3] at he
          rcases sendAll_events o uid _ _ db e he with h | h
          · exact Or.inl h
          · exact Or.inr (Or.inl h)
        · rw [processUser_sent o gtum db uid lastG hlast h1 h2 h3] at he
          simp only at he
          rw [List.mem_append] at he
          rcases he with he | he
          · rcases sendAll_events o uid _ _ db e he with h | h
            · exact Or.inl h
            · exact Or.inr (Or.inl h)
          · rw [List.mem_singleton] at he
            exact Or.inr (Or.inr ⟨lastG.expiration, he, by omega⟩)

/-- A per-user iteration for another user leaves this user's stored watermark
unchanged. -/
theorem processUser_wm_other (o : Subscription → Gear → SendOutcome)
    (gtum : List (Gear × List (Nat × String))) (db : DBState)
    (uid1 uid : Nat) (hne : uid ≠ uid1) :
    getLastNotifiedExpiration (processUser o gtum db uid1).db uid =
      getLastNotifiedExpiration db uid := by
  cases hlast : (getUserGear gtum uid1).getLast? with
  | none => rw [processUser_crash o gtum db uid1 hlast]
  | some lastG =>
    by_cases h1 : lastG.expiration ≤ getLastNotifiedExpiration db uid1
    · rw [processUser_notified o gtum db uid1 lastG hlast h1]
    · by_cases h2 : (getUserSubscriptions db uid1).isEmpty = true
      · rw [processUser_nosubs o gtum db uid1 lastG hlast h1 h2]
      · have husers := sendAll_users o uid1 (getUserGear gtum uid1)
          (getUserSubscriptions db uid1) db
        by_cases h3 : (sendAll o uid1 (getUserGear gtum uid1)
            (getUserSubscriptions db uid1) db).2.2 = true
        · rw [processUser_threw o gtum db uid1 lastG hlast h1 h2 h3]
          exact wm_eq_of_users_eq _ _ husers uid
        · rw [processUser_sent o gtum db uid1 lastG hlast h1 h2 h3]
          simp only
          rw [wm_update_other _ uid1 lastG.expiration uid hne]
          exact wm_eq_of_users_eq _ _ husers uid

/-- Every event of the per-user loop is a send, an endpoint deletion, or a
watermark write strictly above the value stored when the loop started. -/
theorem notifyLoop_events (o : Subscription → Gear → SendOutcome)
    (gtum : List (Gear × List (Nat × String))) (us : List (Nat × String))
    (db : DBState) (e : Event)
    (he : e ∈ (notifyLoop o gtum us db).events) :
    (∃ s g1 u1, e = Event.send s g1 u1) ∨ (∃ ep, e = Event.deleteSub ep)
      ∨ (∃ u1 v, e = Event.setWatermark u1 v
          ∧ getLastNotifiedExpiration db u1 < v) := by
  induction us generalizing db with
  | nil => simp [notifyLoop] at he
  | cons u rest ih =>
    obtain ⟨uid1, code1⟩ := u
    simp only [notifyLoop] at he
    cases hcr : (processUser o gtum db uid1).crashed
    · rw [hcr] at he
      simp only [Bool.false_eq_true, if_false] at he
      rw [List.mem_append] at he
      rcases he with he | he
      · rcases processUser_events o gtum db uid1 e he with h | h | h
        · obtain ⟨s, g1, rfl⟩ := h
          exact Or.inl ⟨s, g1, uid1, rfl⟩
        · exact Or.inr (Or.inl h)
        · obtain ⟨v, rfl, hv⟩ := h
          exact Or.inr (Or.inr ⟨uid1, v, rfl, hv⟩)
      · rcases ih _ he with h | h | h
        · exact Or.inl h
        · exact Or.inr (Or.inl h)
        · obtain ⟨u1, v, rfl, hv⟩ := h
          exact Or.inr (Or.inr ⟨u1, v, rfl,
            lt_of_le_of_lt (processUser_wm_mono o gtum db uid1 u1) hv⟩)
    · rw [hcr] at he
      simp only [if_true] at he
      rcases processUser_events o gtum db uid1 e he with h | h | h
      · obtain ⟨s, g1, rfl⟩ := h
        exact Or.inl ⟨s, g1, uid1, rfl⟩
      · exact Or.inr (Or.inl h)
      · obtain ⟨v, rfl, hv⟩ := h
        exact Or.inr (Or.inr ⟨uid1, v, rfl, hv⟩)

/-- If the user's batch watermark is at most their stored watermark, the loop
issues no send for that user. -/
theorem notifyLoop_no_sends (o : Subscription → Gear → SendOutcome)
    (gtum : List (Gear × List (Nat × String))) (us : List (Nat × String))
    (db : DBState) (uid : Nat)
    (h : ∀ w, batchLatest gtum uid = some w →
      w ≤ getLastNotifiedExpiration db uid)
    (s : Subscription) (g : Gear) :
    Event.send s g uid ∉ (notifyLoop o gtum us db).events := by
  induction us generalizing db with
  | nil => simp [notifyLoop]
  | cons u rest ih =>
    obtain ⟨uid1, code1⟩ := u
    simp only [notifyLoop]
    by_cases huid : uid1 = uid
    · subst huid
      cases hlast : (getUserGear gtum uid1).getLast? with
      | none =>
        rw [processUser_crash o gtum db uid1 hlast]
        simp
      | some lastG =>
        have hbl : batchLatest gtum uid1 = some lastG.expiration := by
          unfold batchLatest
          rw [hlast]
        have h1 : lastG.expiration ≤ getLastNotifiedExpiration db uid1 :=
          h lastG.expiration hbl
        rw [processUser_notified o gtum db uid1 lastG hlast h1]
        simp only [List.nil_append]
        exact ih db h
    · cases hcr : (processUser o gtum db uid1).crashed
      · simp only [Bool.false_eq_true, if_false]
        intro hmem
        rw [List.mem_append] at hmem
        rcases hmem with hmem | hmem
        · rcases processUser_events o gtum db uid1 _ hmem with hh | hh | hh
          · obtain ⟨s1, g1, heq⟩ := hh
            injection heq with _ _ hu
            exact huid hu.symm
          · obtain ⟨ep, heq⟩ := hh
            exact Event.noConfusion heq
          · obtain ⟨v, heq, _⟩ := hh
            exact Event.noConfusion heq
        · refine ih _ ?_ hmem
          intro w hw
          calc w ≤ getLastNotifiedExpiration db uid := h w hw
            _ ≤ _ := processUser_wm_mono o gtum db uid1 uid
      · simp only [if_true]
        intro hmem
        rcases processUser_events o gtum db uid1 _ hmem with hh | hh | hh
        · obtain ⟨s1, g1, heq⟩ := hh
          injection heq with _ _ hu
          exact huid hu.symm
        · obtain ⟨ep, heq⟩ := hh
          exact Event.noConfusion heq
        · obtain ⟨v, heq, _⟩ := hh
          exact Event.noConfusion heq

/-- If the user's batch watermark is at most their stored watermark, the loop
leaves that user's stored watermark unchanged. -/
theorem notifyLoop_wm_unchanged (o : Subscription → Gear → SendOutcome)
    (gtum : List (Gear × List (Nat × String))) (us : List (Nat × String))
    (db : DBState) (uid : Nat)
    (h : ∀ w, batchLatest gtum uid = some w →
      w ≤ getLastNotifiedExpiration db uid) :
    getLastNotifiedExpiration (notifyLoop o gtum us db).db uid =
      getLastNotifiedExpiration db uid := by
  induction us generalizing db with
  | nil => simp [notifyLoop]
  | cons u rest ih =>
    obtain ⟨uid1, code1⟩ := u
    simp only [notifyLoop]
    by_cases huid : uid1 = uid
    · subst huid
      cases hlast : (getUserGear gtum uid1).getLast? with
      | none =>
        rw [processUser_crash o gtum db uid1 hlast]
        simp
      | some lastG =>
        have hbl : batchLatest gtum uid1 = some lastG.expiration := by
          unfold batchLatest
          rw [hlast]
        have h1 : lastG.expiration ≤ getLastNotifiedExpiration db uid1 :=
          h lastG.expiration hbl
        rw [processUser_notified o gtum db uid1 lastG hlast h1]
        simp only
        exact ih db h
    · have hother : getLastNotifiedExpiration
          (processUser o gtum db uid1).db uid =
          getLastNotifiedExpiration db uid :=
        processUser_wm_other o gtum db uid1 uid (fun hh => huid hh.symm)
      cases hcr : (processUser o gtum db uid1).crashed
      · simp only [hcr, Bool.false_eq_true, if_false]
        rw [ih _ (fun w hw => by rw [hother]; exact h w hw)]
        exact hother
      · simp only [hcr, if_true]
        exact hother

/-- A trace of non-commit events satisfies the commit-ordering predicate. -/
theorem nwac_of_no_commit (evs : List Event)
    (h : ∀ e ∈ evs, isCommit e = false) :
    noWatermarkAfterCommit evs = true := by
  induction evs with
  | nil => rfl
  | cons e rest ih =>
    simp only [noWatermarkAfterCommit]
    rw [h e (List.mem_cons_self e rest)]
    simp only [Bool.false_eq_true, if_false]
    exact ih (fun x hx => h x (List.mem_cons_of_mem _ hx))

/-- Appending a final commit to a commit-free trace satisfies the
commit-ordering predicate. -/
theorem nwac_append_commit (evs : List Event) (d : List Gear)
    (h : ∀ e ∈ evs, isCommit e = false) :
    noWatermarkAfterCommit (evs ++ [Event.commitSnapshot d]) = true := by
  induction evs with
  | nil => rfl
  | cons e rest ih =>
    simp only [List.cons_append, noWatermarkAfterCommit]
    rw [h e (List.mem_cons_self e rest)]
    simp only [Bool.false_eq_true, if_false]
    exact ih (fun x hx => h x (List.mem_cons_of_mem _ hx))

/-- One trigger invocation never decreases any stored watermark. -/
theorem handler_wm_mono (sk pk : Option String) (now : Int)
    (fetched : List Gear) (o : Subscription → Gear → SendOutcome)
    (db : DBState) (x : Nat) :
    getLastNotifiedExpiration db x ≤
      getLastNotifiedExpiration (handler sk pk now fetched o db).db x := by
  unfold handler
  by_cases h1 : authOK sk pk
  · rw [h1]
    simp only [Bool.not_true, Bool.false_eq_true, if_false]
    by_cases h2 : cacheStillCurrent now (db.cachedGearData.getD [])
    · rw [if_pos h2]
    · rw [if_neg h2]
      unfold dispatchAndCommit
      cases hgtum : getUsersToNotify db
          (getNewGearItems (db.cachedGearData.getD []) fetched) with
      | none => simp
      | some gtum =>
        simp only
        cases hc : ((notifyLoop o gtum (aggregateUsers gtum) db).crashed
            || (notifyLoop o gtum (aggregateUsers gtum) db).threw)
        · simp only [Bool.false_eq_true, if_false]
          have husers : (updateCachedRawGearData
              (notifyLoop o gtum (aggregateUsers gtum) db).db fetched).users =
              (notifyLoop o gtum (aggregateUsers gtum) db).db.users := rfl
          rw [wm_eq_of_users_eq _ _ husers x]
          exact notifyLoop_wm_mono o gtum _ db x
        · simp only [if_true]
          exact notifyLoop_wm_mono o gtum _ db x
  · simp only [Bool.not_eq_true] at h1
    rw [h1]
    simp

/-- No watermark write follows a non-commit head more than it follows the
tail. -/
theorem nwac_cons_noncommit (e : Event) (evs : List Event)
    (h : isCommit e = false) :
    noWatermarkAfterCommit (e :: evs) = noWatermarkAfterCommit evs := by
  simp only [noWatermarkAfterCommit, h, Bool.false_eq_true, if_false]

/-- No event of the per-user loop is a snapshot commit. -/
theorem notifyLoop_no_commit (o : Subscription → Gear → SendOutcome)
    (gtum : List (Gear × List (Nat × String))) (us : List (Nat × String))
    (db : DBState) (e : Event)
    (he : e ∈ (notifyLoop o gtum us db).events) : isCommit e = false := by
  rcases notifyLoop_events o gtum us db e he with h | h | h
  · obtain ⟨s, g1, u1, rfl⟩ := h
    rfl
  · obtain ⟨ep, rfl⟩ := h
    rfl
  · obtain ⟨u1, v, rfl, hv⟩ := h
    rfl

/-- C1: in every cycle's trace of storage writes, every watermark write
precedes the snapshot commit; the commit, when present, is the final write of
the cycle. -/
theorem watermarks_before_snapshot_commit (sk pk : Option String) (now : Int)
    (fetched : List Gear) (o : Subscription → Gear → SendOutcome)
    (db : DBState) :
    noWatermarkAfterCommit (handler sk pk now fetched o db).events = true := by
  unfold handler
  by_cases h1 : authOK sk pk
  · rw [h1]
    simp only [Bool.not_true, Bool.false_eq_true, if_false]
    by_cases h2 : cacheStillCurrent now (db.cachedGearData.getD [])
    · rw [if_pos h2]
      rfl
    · rw [if_neg h2]
      unfold dispatchAndCommit
      cases hgtum : getUsersToNotify db
          (getNewGearItems (db.cachedGearData.getD []) fetched) with
      | none => rfl
      | some gtum =>
        simp only
        cases hc : ((notifyLoop o gtum (aggregateUsers gtum) db).crashed
            || (notifyLoop o gtum (aggregateUsers gtum) db).threw)
        · simp only [Bool.false_eq_true, if_false]
          rw [show Event.fetchAPI ::
              ((notifyLoop o gtum (aggregateUsers gtum) db).events
                ++ [Event.commitSnapshot fetched]) =
              (Event.fetchAPI ::
                (notifyLoop o gtum (aggregateUsers gtum) db).events)
                ++ [Event.commitSnapshot fetched] from rfl]
          apply nwac_append_commit
          intro e he
          rcases List.mem_cons.mp he with rfl | he2
          · rfl
          · exact notifyLoop_no_commit o gtum _ db e he2
        · simp only [if_true]
          apply nwac_of_no_commit
          intro e he
          rcases List.mem_cons.mp he with rfl | he2
          · rfl
          · exact notifyLoop_no_commit o gtum _ db e he2
  · simp only [Bool.not_eq_true] at h1
    rw [h1]
    rfl

/-- The stored watermark is only ever written with a strictly larger value
than the one stored at cycle start. -/
theorem handler_setWatermark_gt (sk pk : Option String) (now : Int)
    (fetched : List Gear) (o : Subscription → Gear → SendOutcome)
    (db : DBState) (u : Nat) (v : Int)
    (hmem : Event.setWatermark u v ∈ (handler sk pk now fetched o db).events) :
    getLastNotifiedExpiration db u < v := by
  unfold handler at hmem
  by_cases h1 : authOK sk pk
  · rw [h1] at hmem
    simp only [Bool.not_true, Bool.false_eq_true, if_false] at hmem
    by_cases h2 : cacheStillCurrent now (db.cachedGearData.getD [])
    · rw [if_pos h2] at hmem
      simp at hmem
    · rw [if_neg h2] at hmem
      unfold dispatchAndCommit at hmem
      cases hgtum : getUsersToNotify db
          (getNewGearItems (db.cachedGearData.getD []) fetched) with
      | none =>
        rw [hgtum] at hmem
        simp at hmem
      | some gtum =>
        rw [hgtum] at hmem
        simp only at hmem
        have hfromloop : Event.setWatermark u v ∈
            (notifyLoop o gtum (aggregateUsers gtum) db).events →
            getLastNotifiedExpiration db u < v := by
          intro hin
          rcases notifyLoop_events o gtum _ db _ hin with h | h | h
          · obtain ⟨s, g1, u1, heq⟩ := h
            exact Event.noConfusion heq
          · obtain ⟨ep, heq⟩ := h
            exact Event.noConfusion heq
          · obtain ⟨u1, v1, heq, hv⟩ := h
            injection heq with hu hv1
            rw [hu, hv1]
            exact hv
        cases hc : ((notifyLoop o gtum (aggregateUsers gtum) db).crashed
            || (notifyLoop o gtum (aggregateUsers gtum) db).threw)
        · rw [hc] at hmem
          simp only [Bool.false_eq_true, if_false] at hmem
          rcases List.mem_cons.mp hmem with heq | hmem2
          · exact Event.noConfusion heq
          · rw [List.mem_append] at hmem2
            rcases hmem2 with h3 | h3
            · exact hfromloop h3
            · rw [List.mem_singleton] at h3
              exact Event.noConfusion h3
        · rw [hc] at hmem
          simp only [if_true] at hmem
          rcases List.mem_cons.mp hmem with heq | hmem2
          · exact Event.noConfusion heq
          · exact hfromloop hmem2
  · simp only [Bool.not_eq_true] at h1
    rw [h1] at hmem
    simp at hmem

/-- A sequence of trigger invocations never decreases a stored watermark. -/
theorem runCycles_wm_mono (inputs : List CycleInput) (db : DBState)
    (u : Nat) :
    getLastNotifiedExpiration db u ≤
      getLastNotifiedExpiration (runCycles inputs db) u := by
  induction inputs generalizing db with
  | nil => exact le_refl _
  | cons i rest ih =>
    rw [show runCycles (i :: rest) db
        = runCycles rest (runCycleInput i db).db from rfl]
    exact le_trans
      (handler_wm_mono i.secretKey i.providedKey i.now i.fetchedGear
        i.outcome db u)
      (ih _)

/-- C3: a cycle persists a user's watermark only with a value strictly
greater than the value stored at cycle start, and consequently the stored
watermark read back is non-decreasing across any number of cycles. -/
theorem watermark_strict_and_monotonic :
    (∀ (sk pk : Option String) (now : Int) (fetched : List Gear)
      (o : Subscription → Gear → SendOutcome) (db : DBState) (u : Nat)
      (v : Int),
      Event.setWatermark u v ∈ (handler sk pk now fetched o db).events →
        getLastNotifiedExpiration db u < v)
    ∧ (∀ (inputs : List CycleInput) (db : DBState) (u : Nat),
        getLastNotifiedExpiration db u ≤
          getLastNotifiedExpiration (runCycles inputs db) u) :=
  ⟨fun sk pk now fetched o db u v hmem =>
    handler_setWatermark_gt sk pk now fetched o db u v hmem,
  fun inputs db u => runCycles_wm_mono inputs db u⟩

/-- Witness for C3: the cycle on dbWM7 writes watermark 10 for user 1, and 10
exceeds the stored value 7. -/
theorem watermark_strict_and_monotonic_witness :
    Event.setWatermark 1 10
      ∈ (handler none none 0 [gearA, gearB] allSuccess dbWM7).events
    ∧ getLastNotifiedExpiration dbWM7 1 < 10 :=
  ⟨by decide,
    watermark_strict_and_monotonic.1 none none 0 [gearA, gearB] allSuccess
      dbWM7 1 10 (by decide)⟩

/-- If every batch watermark the cycle could compute for the user is at most
their stored watermark, the cycle sends them nothing and leaves their stored
watermark unchanged. -/
theorem handler_skip_stale (sk pk : Option String) (now : Int)
    (fetched : List Gear) (o : Subscription → Gear → SendOutcome)
    (db : DBState) (uid : Nat)
    (h : ∀ w, cycleBatchWatermark db fetched uid = some w →
      w ≤ getLastNotifiedExpiration db uid) :
    (∀ s g, Event.send s g uid ∉ (handler sk pk now fetched o db).events)
    ∧ getLastNotifiedExpiration (handler sk pk now fetched o db).db uid =
      getLastNotifiedExpiration db uid := by
  unfold handler
  by_cases h1 : authOK sk pk
  · rw [h1]
    simp only [Bool.not_true, Bool.false_eq_true, if_false]
    by_cases h2 : cacheStillCurrent now (db.cachedGearData.getD [])
    · rw [if_pos h2]
      exact ⟨fun s g => by simp, rfl⟩
    · rw [if_neg h2]
      unfold dispatchAndCommit
      unfold cycleBatchWatermark at h
      cases hgtum : getUsersToNotify db
          (getNewGearItems (db.cachedGearData.getD []) fetched) with
      | none =>
        exact ⟨fun s g => by simp, rfl⟩
      | some gtum =>
        rw [hgtum] at h
        simp only
        have hba : ∀ w, batchLatest gtum uid = some w →
            w ≤ getLastNotifiedExpiration db uid := h
        have hnos := fun s g => notifyLoop_no_sends o gtum
          (aggregateUsers gtum) db uid hba s g
        have hunch := notifyLoop_wm_unchanged o gtum
          (aggregateUsers gtum) db uid hba
        cases hc : ((notifyLoop o gtum (aggregateUsers gtum) db).crashed
            || (notifyLoop o gtum (aggregateUsers gtum) db).threw)
        · simp only [Bool.false_eq_true, if_false]
          constructor
          · intro s g hmem
            rcases List.mem_cons.mp hmem with heq | hmem2
            · exact Event.noConfusion heq
            · rw [List.mem_append] at hmem2
              rcases hmem2 with h3 | h3
              · exact hnos s g h3
              · rw [List.mem_singleton] at h3
                exact Event.noConfusion h3
          · have husers : (updateCachedRawGearData
                (notifyLoop o gtum (aggregateUsers gtum) db).db fetched).users
              = (notifyLoop o gtum (aggregateUsers gtum) db).db.users := rfl
            rw [wm_eq_of_users_eq _ _ husers uid]
            exact hunch
        · simp only [if_true]
          constructor
          · intro s g hmem
            rcases List.mem_cons.mp hmem with heq | hmem2
            · exact Event.noConfusion heq
            · exact hnos s g hmem2
          · exact hunch
  · simp only [Bool.not_eq_true] at h1
    rw [h1]
    exact ⟨fun s g => by simp, rfl⟩

/-- C2 counterexample: in dbWM7 (stored watermark 7) the batch holds gearA
(expiring at 5, at most the watermark) and gearB (expiring at 10); the cycle
still sends a notification for gearA to the user's subscription, refuting the
per-item reading of the claim. -/
theorem stale_item_still_dispatched :
    gearA.expiration ≤ getLastNotifiedExpiration dbWM7 1
    ∧ gearA ∈ getNewGearItems (dbWM7.cachedGearData.getD []) [gearA, gearB]
    ∧ Event.send subE gearA 1
      ∈ (handler none none 0 [gearA, gearB] allSuccess dbWM7).events := by
  decide

/-- C2 (amended): when the batch watermark computed for a user (the
expiration of the last item of their matched list) is at most their stored
watermark at cycle start, the cycle dispatches no notification at all to that
user. -/
theorem batch_watermark_skip (sk pk : Option String) (now : Int)
    (fetched : List Gear) (o : Subscription → Gear → SendOutcome)
    (db : DBState) (uid : Nat) (w : Int)
    (hw : cycleBatchWatermark db fetched uid = some w)
    (hle : w ≤ getLastNotifiedExpiration db uid)
    (s : Subscription) (g : Gear) :
    Event.send s g uid ∉ (handler sk pk now fetched o db).events :=
  (handler_skip_stale sk pk now fetched o db uid
    (fun w1 hw1 => by
      rw [hw1] at hw
      injection hw with hww
      omega)).1 s g

/-- Witness for C2 (amended): with stored watermark 10 and a batch holding
only gearA (expiring at 5), no send for user 1 is issued. -/
theorem batch_watermark_skip_witness :
    Event.send subE gearA 1
      ∉ (handler none none 0 [gearA] allSuccess dbWM10).events :=
  batch_watermark_skip none none 0 [gearA] allSuccess dbWM10 1 5
    (by decide) (by decide) subE gearA

/-- C5 counterexample: with the stored watermark equal to the batch watermark
(both 10) and a live subscription, the cycle issues no send at all, refuting
the claim that dispatch is still attempted. -/
theorem equal_watermark_no_dispatch :
    cycleBatchWatermark dbWM10 [gearB] 1 = some 10
    ∧ getLastNotifiedExpiration dbWM10 1 = 10
    ∧ getUserSubscriptions dbWM10 1 ≠ []
    ∧ (handler none none 0 [gearB] allSuccess dbWM10).events.all
        (fun e => !(isSend e)) = true := by
  decide

/-- C5 (amended): when a user's stored watermark already equals the batch's
computed watermark, the cycle skips the user: no dispatch is attempted for
them, and their stored watermark is left unchanged. -/
theorem equal_watermark_still_skipped (sk pk : Option String) (now : Int)
    (fetched : List Gear) (o : Subscription → Gear → SendOutcome)
    (db : DBState) (uid : Nat) (w : Int)
    (hw : cycleBatchWatermark db fetched uid = some w)
    (heq : w = getLastNotifiedExpiration db uid) :
    (∀ s g, Event.send s g uid ∉ (handler sk pk now fetched o db).events)
    ∧ getLastNotifiedExpiration (handler sk pk now fetched o db).db uid =
      getLastNotifiedExpiration db uid :=
  handler_skip_stale sk pk now fetched o db uid
    (fun w1 hw1 => by
      rw [hw1] at hw
      injection hw with hww
      omega)

/-- Witness for C5 (amended): stored watermark 10, batch watermark 10, the
cycle sends nothing to the user and their watermark stays 10. -/
theorem equal_watermark_still_skipped_witness :
    Event.send subE gearB 1
      ∉ (handler none none 0 [gearB] allSuccess dbWM10).events
    ∧ getLastNotifiedExpiration
        (handler none none 0 [gearB] allSuccess dbWM10).db 1 =
      getLastNotifiedExpiration dbWM10 1 := by
  have h := equal_watermark_still_skipped none none 0 [gearB] allSuccess
    dbWM10 1 10 (by decide) (by decide)
  exact ⟨h.1 subE gearB, h.2⟩

/-- C6: when the stored snapshot is non-empty and every cached item (in
particular the earliest) still expires after now, an authorized trigger
returns the too-early status with no fetch, no dispatch and no storage
write: the trace is empty and the store is unchanged. -/
theorem too_early_short_circuit (sk pk : Option String) (now : Int)
    (fetched : List Gear) (o : Subscription → Gear → SendOutcome)
    (db : DBState) (cg : List Gear)
    (hauth : authOK sk pk = true)
    (hcache : db.cachedGearData = some cg)
    (hne : cg ≠ [])
    (hfresh : ∀ g ∈ cg, now < g.expiration) :
    handler sk pk now fetched o db =
      { status := HStatus.tooEarly, events := [], db := db } := by
  unfold handler
  rw [hauth]
  simp only [Bool.not_true, Bool.false_eq_true, if_false]
  have hcur : cacheStillCurrent now (db.cachedGearData.getD []) = true := by
    rw [hcache]
    cases cg with
    | nil => exact absurd rfl hne
    | cons g0 rest =>
      simp only [Option.getD_some, cacheStillCurrent, decide_eq_true_eq]
      exact hfresh g0 (List.mem_cons_self g0 rest)
  rw [if_pos hcur]

/-- Witness for C6: at time 50 the cached snapshot of dbFresh (one item
expiring at 100) short-circuits the cycle. -/
theorem too_early_short_circuit_witness :
    handler none none 50 [gearB] allSuccess dbFresh =
      { status := HStatus.tooEarly, events := [], db := dbFresh } :=
  too_early_short_circuit none none 50 [gearB] allSuccess dbFresh [gearF]
    rfl rfl (by decide) (by decide)

/-- Witness for C7: the all-wildcard filter matches gearA, so its owner is in
the matcher's result. -/
theorem matcher_iff_all_clauses_witness :
    getUsersToBeNotified
        (singleFilterDB 1 "u" (some 7) 10 wildcardFilter [] none) gearA =
      .ok (if wildcardFilter.minimumRarity ≤ gearA.rarity
            ∧ (wildcardFilter.gearName = "" ∨ wildcardFilter.gearName = gearA.name)
            ∧ (wildcardFilter.gearTypes = [] ∨ gearA.gtype ∈ wildcardFilter.gearTypes)
            ∧ (wildcardFilter.gearBrands = [] ∨ gearA.brand ∈ wildcardFilter.gearBrands)
            ∧ (wildcardFilter.gearAbilities = []
                ∨ gearA.ability ∈ wildcardFilter.gearAbilities)
          then [(1, "u")] else []) :=
  matcher_iff_all_clauses 1 "u" (some 7) 10 wildcardFilter gearA [] none
    (by decide)

/-- A key found in a JavaScript Map after set was already present or is the
set key. -/
theorem mem_mapSet (m : List (Nat × String)) (k : Nat) (v : String)
    (x : Nat) (c : String) (h : (x, c) ∈ mapSet m k v) :
    (∃ c0, (x, c0) ∈ m) ∨ x = k := by
  unfold mapSet at h
  by_cases hany : m.any (fun p => p.1 = k)
  · rw [if_pos hany] at h
    obtain ⟨q, hq, hqe⟩ := List.mem_map.mp h
    by_cases hqk : q.1 = k
    · rw [if_pos hqk] at hqe
      exact Or.inr (congrArg Prod.fst hqe).symm
    · rw [if_neg hqk] at hqe
      exact Or.inl ⟨c, hqe ▸ hq⟩
  · rw [if_neg hany] at h
    rw [List.mem_append] at h
    rcases h with h | h
    · exact Or.inl ⟨c, h⟩
    · rw [List.mem_singleton] at h
      exact Or.inr (congrArg Prod.fst h)

/-- A key present after inserting one user map was in the accumulator or in
that user map. -/
theorem mem_insertAllUsers (acc : List (Nat × String))
    (um : List (Nat × String)) (x : Nat) (c : String)
    (h : (x, c) ∈ insertAllUsers acc um) :
    (∃ c0, (x, c0) ∈ acc) ∨ (∃ c0, (x, c0) ∈ um) := by
  induction um generalizing acc with
  | nil => exact Or.inl ⟨c, h⟩
  | cons p rest ih =>
    simp only [insertAllUsers] at h
    rcases ih _ h with h2 | h2
    · obtain ⟨c0, hc0⟩ := h2
      rcases mem_mapSet acc p.1 p.2 x c0 hc0 with h3 | h3
      · exact Or.inl h3
      · refine Or.inr ⟨p.2, ?_⟩
        rw [h3]
        exact List.mem_cons_self (p.1, p.2) rest
    · obtain ⟨c0, hc0⟩ := h2
      exact Or.inr ⟨c0, List.mem_cons_of_mem _ hc0⟩

/-- A key present in the aggregated user map was in the accumulator or in
some item's user map. -/
theorem mem_aggregateUsersAux (acc : List (Nat × String))
    (l : List (Gear × List (Nat × String))) (x : Nat) (c : String)
    (h : (x, c) ∈ aggregateUsersAux acc l) :
    (∃ c0, (x, c0) ∈ acc)
      ∨ (∃ gm, gm ∈ l ∧ ∃ c0, (x, c0) ∈ gm.2) := by
  induction l generalizing acc with
  | nil => exact Or.inl ⟨c, h⟩
  | cons gm rest ih =>
    simp only [aggregateUsersAux] at h
    rcases ih _ h with h2 | h2
    · obtain ⟨c0, hc0⟩ := h2
      rcases mem_insertAllUsers acc gm.2 x c0 hc0 with h3 | h3
      · exact Or.inl h3
      · exact Or.inr ⟨gm, List.mem_cons_self gm rest, h3⟩
    · obtain ⟨gm1, hgm1, h3⟩ := h2
      exact Or.inr ⟨gm1, List.mem_cons_of_mem _ hgm1, h3⟩

/-- C10: every user id in the aggregated user map appears in at least one
item's matched-user map, so the per-user matched gear list is non-empty and
its last element exists: reading it never accesses a missing element. -/
theorem aggregated_user_has_gear (gtum : List (Gear × List (Nat × String)))
    (uid : Nat) (c : String) (h : (uid, c) ∈ aggregateUsers gtum) :
    (∃ gm, gm ∈ gtum ∧ gm.2.any (fun p => p.1 = uid) = true)
    ∧ getUserGear gtum uid ≠ []
    ∧ (∃ g, (getUserGear gtum uid).getLast? = some g) := by
  have h0 := mem_aggregateUsersAux [] gtum uid c h
  rcases h0 with h0 | h0
  · obtain ⟨c0, hc0⟩ := h0
    exact absurd hc0 (List.not_mem_nil _)
  · obtain ⟨gm, hgm, c0, hc0⟩ := h0
    have hany : gm.2.any (fun p => p.1 = uid) = true := by
      rw [List.any_eq_true]
      exact ⟨(uid, c0), hc0, by simp⟩
    have hmem1 : gm.1 ∈ getUserGear gtum uid := by
      unfold getUserGear
      exact List.mem_map.mpr ⟨gm, List.mem_filter.mpr ⟨hgm, hany⟩, rfl⟩
    have hneq : getUserGear gtum uid ≠ [] := List.ne_nil_of_mem hmem1
    refine ⟨⟨gm, hgm, hany⟩, hneq, ?_⟩
    exact Option.isSome_iff_exists.mp (List.getLast?_isSome.mpr hneq)

/-- Witness for C10: a one-item aggregate containing user 1. -/
theorem aggregated_user_has_gear_witness :
    (∃ gm, gm ∈ [(gearA, [((1:Nat), "u")])]
      ∧ gm.2.any (fun p => p.1 = 1) = true)
    ∧ getUserGear [(gearA, [((1:Nat), "u")])] 1 ≠ []
    ∧ (∃ g, (getUserGear [(gearA, [((1:Nat), "u")])] 1).getLast? = some g) :=
  aggregated_user_has_gear [(gearA, [(1, "u")])] 1 "u" (by decide)

/-- C4: one malformed item name in the batch makes getUsersToBeNotified
reject inside an async function; the promise executor's try/catch cannot
observe the rejection, the per-item wrapper promise never settles, and the
awaited Promise.all therefore never resolves: the cycle hangs instead of
skipping the item, dispatching the rest and answering 200. The trace stops at
the inventory fetch, no send occurs, and nothing is committed. -/
theorem malformed_item_hangs_cycle :
    validGearName gearBad.name = false
    ∧ validGearName gearA.name = true
    ∧ (handler none none 0 [gearA, gearBad] allSuccess dbWM7).status
        = HStatus.hang
    ∧ (handler none none 0 [gearA, gearBad] allSuccess dbWM7).events
        = [Event.fetchAPI]
    ∧ (handler none none 0 [gearA, gearBad] allSuccess dbWM7).db = dbWM7 := by
  decide

end SSA
